import Mathlib

/-!
Shallow embedding of the `images_rar` repository's core modules
(`src/image_compressor.py`, `src/batch_processor.py`) and proofs checking
the natural-language specification's claims against it.

Python dictionaries are modelled as association lists over `PyVal`;
Python floats as exact rationals; the Pillow encoder and the file system
as explicit function parameters (an encoder is a function from a quality
level to the encoded byte size / byte content).  Wall-clock timestamps
are kept as explicit rational parameters where the code stores them.
-/

namespace ImagesRar

set_option maxRecDepth 40000

/-- A Python value as it appears in the result dictionaries of
`image_compressor.py`.  Python floats are modelled as exact rationals. -/
inductive PyVal where
  | int (n : Int)
  | rat (q : ℚ)
  | str (s : String)
  | bool (b : Bool)
  | pair (p : Nat × Nat)
  | strs (l : List String)
  | pynone
deriving DecidableEq

/-- A Python `dict` with string keys, as an association list in insertion
order (every dict built by the source has pairwise distinct keys). -/
def PyDict := List (String × PyVal)
deriving DecidableEq

/-- `d.get(k)`: the value stored under key `k`, `none` when the key is
absent (Python returns `None`). -/
def dget (d : PyDict) (k : String) : Option PyVal :=
  (List.find? (fun kv => kv.fst == k) d).map (fun kv => kv.snd)

/-- `d.get(k, default)`. -/
def dgetD (d : PyDict) (k : String) (v : PyVal) : PyVal :=
  (dget d k).getD v

/-- Python truthiness `bool(v)`. -/
def pyTruthy : PyVal → Bool
  | .int n => n != 0
  | .rat q => q != 0
  | .str s => s != ""
  | .bool b => b
  | .pair _ => true
  | .strs l => !l.isEmpty
  | .pynone => false

/-- Numeric reading of a stored value, for arithmetic on dict entries. -/
def pyNum : PyVal → ℚ
  | .int n => (n : ℚ)
  | .rat q => q
  | _ => 0

/-! ## Task lifecycle (`CompressionTask` of `batch_processor.py`) -/

/-- The `TaskStatus` enum. -/
inductive TStatus where
  | pending | running | completed | failed | cancelled
deriving DecidableEq

/-- The fields of `CompressionTask` that the lifecycle and the claims
touch.  The wall-clock timestamp fields (`created_at`, `started_at`,
`completed_at`) record real time and no claim depends on their values, so
they are omitted; the four result metrics are stored exactly as
`complete` reads them out of the result dict (`result.get(k)`, absent
keys storing Python `None` = `Option.none`). -/
structure TaskData where
  taskId : String
  inputPath : String
  outputPath : String
  targetSizeKb : Nat
  replaceOriginal : Bool
  compressionMethod : String
  status : TStatus
  origSizeStored : Option PyVal
  finalSizeStored : Option PyVal
  ratioStored : Option PyVal
  procTimeStored : Option PyVal
  errorMessage : Option PyVal
  progressPercentage : ℚ
  currentStep : String
deriving DecidableEq

/-- `CompressionTask.start`: status `running`, progress reset to 0. -/
def TaskData.start (d : TaskData) : TaskData :=
  { d with status := .running, progressPercentage := 0, currentStep := "正在处理" }

/-- `CompressionTask.complete(result)`: status `completed`, progress 100,
stores the four result metrics read from the result dict. -/
def TaskData.complete (d : TaskData) (result : PyDict) : TaskData :=
  { d with
    status := .completed, progressPercentage := 100,
    currentStep := "处理完成",
    origSizeStored := dget result "original_size_bytes",
    finalSizeStored := dget result "final_size_bytes",
    ratioStored := dget result "compression_ratio",
    procTimeStored := dget result "processing_time_seconds" }

/-- `CompressionTask.fail(error_message)`. -/
def TaskData.fail (d : TaskData) (msg : PyVal) : TaskData :=
  { d with
    status := .failed, progressPercentage := 0,
    currentStep := "处理失败", errorMessage := some msg }

/-- `CompressionTask.cancel`. -/
def TaskData.cancel (d : TaskData) : TaskData :=
  { d with
    status := .cancelled, progressPercentage := 0,
    currentStep := "已取消" }

/-- `CompressionTask.update_progress(percentage, step)`. -/
def TaskData.updateProgress (d : TaskData) (p : ℚ) (step : String) : TaskData :=
  { d with progressPercentage := max 0 (min 100 p), currentStep := step }

/-- `CompressionTask.is_finished`: terminal statuses. -/
def TaskData.isFinished (d : TaskData) : Bool :=
  match d.status with
  | .completed | .failed | .cancelled => true
  | _ => false

/-! ## Quality binary search (`image_compressor.py`) -/

/-- State produced by the binary-search loop shared by
`calculate_quality_parameter`, `_calculate_quality_for_resized_image`,
`compress_with_webp` and `compress_with_advanced_jpeg`: the best quality
and best size so far (`bestSize = none` models the initial
`float('inf')`), and the quality levels tested, in order. -/
structure QSearch where
  bestQuality : Nat
  bestSize : Option Nat
  tested : List Nat
deriving DecidableEq

/-- The loop `while low <= high and iterations < max_iterations` with
`mid = (low + high) // 2`; `size q` is the byte length of the in-memory
encode at quality `q`; the first argument is the remaining fuel
(`max_iterations - iterations`). -/
def qualitySearch (size : Nat → Nat) (target : Nat) :
    Nat → Nat → Nat → Nat → Option Nat → QSearch
  | 0, _, _, best, bsz => ⟨best, bsz, []⟩
  | fuel + 1, low, high, best, bsz =>
    if low ≤ high then
      let mid := (low + high) / 2
      if size mid ≤ target then
        let r := qualitySearch size target fuel (mid + 1) high mid (some (size mid))
        ⟨r.bestQuality, r.bestSize, mid :: r.tested⟩
      else
        let r := qualitySearch size target fuel low (mid - 1) best bsz
        ⟨r.bestQuality, r.bestSize, mid :: r.tested⟩
    else ⟨best, bsz, []⟩

/-- `ImageCompressor.calculate_quality_parameter` over an input of
`fileSize` bytes whose in-memory JPEG encode at quality `q` has `size q`
bytes: returns `(best_quality, best_size)`.  A `bestSize` of `none` is
the Python `float('inf')` returned when no tested quality met the
target. -/
def calculateQualityParameter (fileSize : Nat) (size : Nat → Nat)
    (target : Nat) (maxIterations : Nat := 20) : Nat × Option Nat :=
  if fileSize ≤ target then (95, some fileSize)
  else
    let r := qualitySearch size target maxIterations 1 95 95 none
    (r.bestQuality, r.bestSize)

/-- `ImageCompressor._calculate_quality_for_resized_image`
(`max_iterations = 15`, returns only the quality). -/
def qualityForResizedImage (size : Nat → Nat) (target : Nat)
    (maxIterations : Nat := 15) : Nat :=
  (qualitySearch size target maxIterations 1 95 95 none).bestQuality

/-! ## Resolution scaling (`calculate_optimal_dimensions`) -/

/-- Python `int(q)`: truncation toward zero. -/
def pyInt (q : ℚ) : Int := if q < 0 then -(Int.floor (-q)) else Int.floor q

/-- `max(1, int(q))`-style results are natural numbers. -/
def pyIntNat (q : ℚ) : Nat := (pyInt q).toNat

/-- Round down to an even number: `n if n % 2 == 0 else n - 1`. -/
def evenDown (n : Nat) : Nat := if n % 2 = 0 then n else n - 1

/-- One scaled dimension before the 32 px floor check:
`max(1, int(dim * scale_factor))`, rounded down to an even number. -/
def preDim (n : Nat) (scaleFactor : ℚ) : Nat :=
  evenDown (max 1 (pyIntNat ((n : ℚ) * scaleFactor)))

/-- `ImageCompressor.calculate_optimal_dimensions`.  `sqrtFactor` stands
for the Python float `(target_size_bytes / current_file_size) ** 0.5`;
theorems that need the square-root reading constrain it by
`sqrtFactor ^ 2 * current = target`. -/
def calculateOptimalDimensions (w h target current : Nat)
    (sqrtFactor : ℚ) : Nat × Nat :=
  if current ≤ target then (w, h)
  else
    let scaleFactor := min 1 sqrtFactor
    let nw := preDim w scaleFactor
    let nh := preDim h scaleFactor
    if nw < 32 ∨ nh < 32 then
      if 1 < (w : ℚ) / (h : ℚ) then
        (32, max 32 (pyIntNat (32 / ((w : ℚ) / (h : ℚ)))))
      else
        (max 32 (pyIntNat (32 * ((w : ℚ) / (h : ℚ)))), 32)
    else (nw, nh)

/-- The claim's "aspect ratio preserved within rounding tolerance":
each returned dimension may deviate from the ideal common rescale of
the original dimensions by at most 2 (one from `int`'s truncation, one
from the rounding down to an even number), which bounds the cross
products of returned and original dimensions by `2 * (w + h)`. -/
def aspectWithinTolerance (w h nw nh : Nat) : Prop :=
  |(nw : ℚ) * (h : ℚ) - (nh : ℚ) * (w : ℚ)| ≤ 2 * ((w : ℚ) + (h : ℚ))

/-! ## The compression engine (`ImageCompressor`)

Each engine method is a function of an environment describing the input
file and the Pillow encoder's behaviour on this image: `List Nat` is a
file's byte content, and an encoder is abstracted as a function from the
JPEG/WEBP quality level to the encoded size (for in-memory probe saves)
or to the encoded content (for the final save, whose `optimize=True`
flags can produce different bytes than the probe). -/

/-- Environment of one `compress_single_image` call. -/
structure StdEnv where
  /-- The input file's bytes (`original_info.file_size` is its length). -/
  inputBytes : List Nat
  /-- Original pixel dimensions. -/
  width : Nat
  height : Nat
  /-- The Python float `(target / current) ** 0.5` used by
  `calculate_optimal_dimensions` via `resize_image_smart`. -/
  sqrtFactor : ℚ
  /-- In-memory JPEG size of the original-mode image at quality `q`. -/
  encSizeOrig : Nat → Nat
  /-- In-memory JPEG size of the resized image at quality `q`. -/
  encSizeResized : Nat → Nat
  /-- Bytes written by `save(output_path, 'JPEG', quality, optimize=True)`:
  first argument is whether the resized image is being saved. -/
  savedBytes : Bool → Nat → List Nat

/-- `ImageCompressor.compress_single_image` (both branches), returning
the result dict and the output file's content.  `ptime` is the measured
wall-clock `processing_time_seconds`.  Division by zero cannot arise for
an encoder writing at least one byte; `ℚ` division by zero would give 0
where Python would raise. -/
def compressSingleImage (env : StdEnv) (inPath outPath : String)
    (target : Nat) (ptime : ℚ) : PyDict × List Nat :=
  let orig := env.inputBytes.length
  if orig ≤ target then
    -- shutil.copy2: the output file is the input file, byte for byte
    ([("input_path", .str inPath),
      ("output_path", .str outPath),
      ("original_size_bytes", .int orig),
      ("final_size_bytes", .int orig),
      ("compression_ratio", .rat 1),
      ("quality_used", .int 95),
      ("dimensions_original", .pair (env.width, env.height)),
      ("dimensions_final", .pair (env.width, env.height)),
      ("resize_applied", .bool false),
      ("processing_time_seconds", .rat ptime),
      ("target_achieved", .bool true),
      ("method", .str "direct_copy")], env.inputBytes)
  else
    let dims := calculateOptimalDimensions env.width env.height target orig env.sqrtFactor
    let resizeApplied : Bool := dims.1 != env.width || dims.2 != env.height
    let bestQuality :=
      if resizeApplied then
        if env.encSizeResized 85 > target
        then qualityForResizedImage env.encSizeResized target
        else 85
      else (calculateQualityParameter orig env.encSizeOrig target).1
    let content := env.savedBytes resizeApplied bestQuality
    let finalSize := content.length
    ([("input_path", .str inPath),
      ("output_path", .str outPath),
      ("original_size_bytes", .int orig),
      ("final_size_bytes", .int finalSize),
      ("compression_ratio", .rat ((orig : ℚ) / (finalSize : ℚ))),
      ("quality_used", .int bestQuality),
      ("dimensions_original", .pair (env.width, env.height)),
      ("dimensions_final", .pair dims),
      ("resize_applied", .bool resizeApplied),
      ("processing_time_seconds", .rat ptime),
      ("target_achieved", .bool (finalSize ≤ target)),
      ("method", .str "smart_compression")], content)

/-- Environment of one `compress_with_webp` call. -/
structure WebpEnv where
  inputBytes : List Nat
  /-- In-memory WEBP size at quality `q` (probe saves in the search). -/
  webpSize : Nat → Nat
  /-- Bytes written by `save(output_path, 'WEBP', quality, optimize=True)`. -/
  webpSaved : Nat → List Nat

/-- `ImageCompressor.compress_with_webp` (both branches), returning the
result dict and the output file's content.  Note: even an input already
at or under the target is re-encoded (`quality=95`), not copied, and
neither branch stores a `target_achieved` key. -/
def compressWithWebp (env : WebpEnv) (inPath outPath : String)
    (target : Nat) (ptime : ℚ) : PyDict × List Nat :=
  let orig := env.inputBytes.length
  if orig ≤ target then
    let content := env.webpSaved 95
    let finalSize := content.length
    ([("input_path", .str inPath),
      ("output_path", .str outPath),
      ("original_size_bytes", .int orig),
      ("final_size_bytes", .int finalSize),
      ("compression_ratio", .rat ((orig : ℚ) / (finalSize : ℚ))),
      ("quality_used", .int 95),
      ("format", .str "WEBP"),
      ("processing_time_seconds", .rat ptime),
      ("method", .str "webp_high_quality")], content)
  else
    let r := qualitySearch env.webpSize target 20 1 95 95 none
    let content := env.webpSaved r.bestQuality
    let finalSize := content.length
    ([("input_path", .str inPath),
      ("output_path", .str outPath),
      ("original_size_bytes", .int orig),
      ("final_size_bytes", .int finalSize),
      ("compression_ratio", .rat ((orig : ℚ) / (finalSize : ℚ))),
      ("quality_used", .int r.bestQuality),
      ("format", .str "WEBP"),
      ("processing_time_seconds", .rat ptime),
      ("iterations", .int r.tested.length),
      ("method", .str "webp_optimized")], content)

/-- Environment of one `compress_with_advanced_jpeg` call. -/
structure AdvEnv where
  inputBytes : List Nat
  width : Nat
  height : Nat
  /-- The Python float `(target / current) ** 0.5` of the pre-resize. -/
  sqrtFactor : ℚ
  /-- In-memory size at quality `q` with `optimize, progressive,
  subsampling=0`; first argument is whether the image was pre-resized. -/
  advSize : Bool → Nat → Nat
  /-- Bytes written by the final save at quality `q`. -/
  advSaved : Bool → Nat → List Nat

/-- `ImageCompressor.compress_with_advanced_jpeg`: optional pre-resize
when the file exceeds twice the target, then the standard binary search
with the advanced encoder flags.  No `target_achieved` key is stored. -/
def compressWithAdvancedJpeg (env : AdvEnv) (inPath outPath : String)
    (target : Nat) (ptime : ℚ) : PyDict × List Nat :=
  let orig := env.inputBytes.length
  let dims :=
    if target * 2 < orig
    then calculateOptimalDimensions env.width env.height target orig env.sqrtFactor
    else (env.width, env.height)
  let resized : Bool := dims.1 != env.width || dims.2 != env.height
  let r := qualitySearch (env.advSize resized) target 20 1 95 95 none
  let content := env.advSaved resized r.bestQuality
  let finalSize := content.length
  ([("input_path", .str inPath),
    ("output_path", .str outPath),
    ("original_size_bytes", .int orig),
    ("final_size_bytes", .int finalSize),
    ("compression_ratio", .rat ((orig : ℚ) / (finalSize : ℚ))),
    ("quality_used", .int r.bestQuality),
    ("format", .str "JPEG"),
    ("processing_time_seconds", .rat ptime),
    ("iterations", .int r.tested.length),
    ("method", .str "advanced_jpeg"),
    ("optimizations", .strs ["optimize", "progressive", "subsampling=0"])],
   content)

/-! ## Best-of method selection (`compress_with_best_method`) -/

/-- `score_method` inside `compress_with_best_method`:
`0.5 * (1 if result.get('target_achieved', False) else 0.5)
 + 0.3 * min(1, target / result['final_size_bytes'])
 + 0.2 * (result.get('quality_used', 50) / 100)`. -/
def scoreMethod (target : Nat) (r : PyDict) : ℚ :=
  let sizeScore : ℚ := if pyTruthy (dgetD r "target_achieved" (.bool false)) then 1 else 1 / 2
  let efficiencyScore : ℚ := min 1 ((target : ℚ) / pyNum (dgetD r "final_size_bytes" .pynone))
  let qualityScore : ℚ := pyNum (dgetD r "quality_used" (.int 50)) / 100
  sizeScore * (1 / 2) + efficiencyScore * (3 / 10) + qualityScore * (1 / 5)

/-- Python `max(methods, key=f)`: the first element attaining the
maximal key (later elements replace only on a strictly greater key). -/
def pyMaxBy (f : PyDict → ℚ) : List PyDict → Option PyDict
  | [] => none
  | x :: xs => some (xs.foldl (fun cur y => if f cur < f y then y else cur) x)

/-- The winner selection of `compress_with_best_method` over the list of
result dicts of the methods that did not raise (in the source's order:
standard, advanced jpeg, webp); `none` models the `OSError` raised when
every method failed. -/
def bestOfPick (target : Nat) (methods : List PyDict) : Option PyDict :=
  pyMaxBy (scoreMethod target) methods

/-- The score formula exactly as the specification words it, where
`achieved` is the Result contract's achieved flag: the output met the
byte budget (`final_size ≤ target`).  Kept separate from `scoreMethod`
(the source's), to compare the two. -/
def specScore (target : Nat) (r : PyDict) : ℚ :=
  let finalSize : ℚ := pyNum (dgetD r "final_size_bytes" .pynone)
  let achieved : ℚ := if finalSize ≤ (target : ℚ) then 1 else 1 / 2
  let efficiency : ℚ := min 1 (max 0 ((target : ℚ) / finalSize))
  let quality : ℚ := pyNum (dgetD r "quality_used" (.int 50)) / 100
  (1 / 2) * achieved + (3 / 10) * efficiency + (1 / 5) * quality

/-! ## Task queue (`TaskQueue` of `batch_processor.py`)

In Python the waiting queue and the id → task registry hold references
to the same `CompressionTask` objects; here the registry is the single
store of task state and the waiting collection holds
`(priority value, task id)` entries, which models that aliasing
exactly.  The priority value is `TaskPriority.value`
(low 1 < normal 2 < high 3 < urgent 4); in FIFO mode it is ignored. -/

/-- The `TaskPriority` enum. -/
inductive TPriority where
  | low | normal | high | urgent
deriving DecidableEq

/-- The enum's numeric value. -/
def TPriority.val : TPriority → Nat
  | .low => 1
  | .normal => 2
  | .high => 3
  | .urgent => 4

/-- One `TaskQueue` instance: waiting entries, registry, active-id set,
counters, and its construction parameters. -/
structure QState where
  usePriority : Bool
  maxSize : Nat
  waiting : List (Nat × String)
  registry : List (String × TaskData)
  active : List String
  totalAdded : Nat
  totalCompleted : Nat
deriving DecidableEq

/-- Lookup in an id → task association list. -/
def regFind (reg : List (String × TaskData)) (id : String) :
    Option TaskData :=
  (List.find? (fun kv => kv.fst == id) reg).map (fun kv => kv.snd)

/-- `self._tasks.get(task_id)`. -/
def lookupTask (st : QState) (id : String) : Option TaskData :=
  regFind st.registry id

/-- Overwrite the registry's entry for `id` (a mutation of the shared
task object in Python). -/
def updateTask (reg : List (String × TaskData)) (id : String)
    (d : TaskData) : List (String × TaskData) :=
  reg.map (fun kv => if kv.fst == id then (kv.fst, d) else kv)

/-- `TaskQueue.add_task(task, priority)`: rejects a registered id, or a
full bounded queue (the `put(timeout=1.0)` raising `queue.Full`);
otherwise registers the task and counts it. -/
def addTask (st : QState) (d : TaskData) (priority : TPriority) :
    QState × Bool :=
  if (lookupTask st d.taskId).isSome then (st, false)
  else if st.maxSize ≠ 0 ∧ st.maxSize ≤ st.waiting.length then (st, false)
  else
    ({ st with
       waiting := st.waiting ++ [(priority.val, d.taskId)],
       registry := st.registry ++ [(d.taskId, d)],
       totalAdded := st.totalAdded + 1 }, true)

/-- Index of the entry a `queue.PriorityQueue.get` removes: the heap
minimum under `PriorityTask.__lt__`, which inverts the comparison
(`self.priority.value > other.priority.value`), so the entry with the
greatest priority value; among equal values the heap's choice is
unspecified, and the leftmost is taken here (for the distinct values of
the claims the two coincide). -/
def heapPopIdx (waiting : List (Nat × String)) : Nat :=
  match waiting.enum with
  | [] => 0
  | x :: xs =>
    (xs.foldl (fun cur e => if cur.2.1 < e.2.1 then e else cur) x).1

/-- `TaskQueue.get_task`: removes an entry from the waiting collection
(FIFO head, or the priority-heap minimum), marks its id active, and
returns it; `none` on an empty queue (the timeout path). -/
def getTask (st : QState) : QState × Option String :=
  match st.waiting with
  | [] => (st, none)
  | _ =>
    let i := if st.usePriority then heapPopIdx st.waiting else 0
    match st.waiting.get? i with
    | none => (st, none)
    | some e =>
      ({ st with
         waiting := st.waiting.eraseIdx i,
         active := if st.active.contains e.2 then st.active else st.active ++ [e.2] },
       some e.2)

/-- `TaskQueue.task_done(task)`: discards the id from the active set and
counts a completion, whatever the task's final status. -/
def taskDone (st : QState) (id : String) : QState :=
  { st with
    active := st.active.filter (fun j => j ≠ id),
    totalCompleted := st.totalCompleted + 1 }

/-- `TaskQueue.cancel_task(task_id)`: cancels the task iff it is
registered and still pending. -/
def cancelTask (st : QState) (id : String) : QState × Bool :=
  match lookupTask st id with
  | some d =>
    if d.status = .pending
    then ({ st with registry := updateTask st.registry id d.cancel }, true)
    else (st, false)
  | none => (st, false)

/-- `TaskQueue.cancel_all_pending`: cancels every pending registered
task and returns how many. -/
def cancelAllPending (st : QState) : QState × Nat :=
  ({ st with
     registry := st.registry.map
       (fun kv => if kv.snd.status = .pending then (kv.fst, kv.snd.cancel) else kv) },
   (st.registry.filter (fun kv => kv.snd.status == .pending)).length)

/-- `TaskQueue.clear`: drains the waiting collection, cancels every
registered task that is not yet terminal (running ones included), and
resets the active set; the underlying queue's `task_done` calls do not
touch `_total_completed`. -/
def clearQueue (st : QState) : QState :=
  { st with
    waiting := [],
    registry := st.registry.map
      (fun kv => if kv.snd.isFinished then kv else (kv.fst, kv.snd.cancel)),
    active := [] }

/-! ## The worker (`CompressionWorker`) -/

/-- Outcome of the engine call the worker makes for one task: the result
dict, or the exception message of a raised error. -/
inductive EngineOutcome where
  | ok (result : PyDict)
  | exc (msg : String)
deriving DecidableEq

/-- What `_process_task` did to one task: its final data, and whether
the compression engine was invoked for it. -/
structure ProcessedTask where
  task : TaskData
  engineInvoked : Bool
deriving DecidableEq

/-- The success test of `_process_task`:
`result and result.get('success', False)` (dict truthiness, then
truthiness of the value stored under `'success'`). -/
def successCheck (result : PyDict) : Bool :=
  !List.isEmpty result && pyTruthy (dgetD result "success" (.bool false))

/-- `CompressionWorker._process_task(task)` given the engine call's
outcome: `task.start()`, progress updates, the engine call, then
`task.complete` on a truthy `'success'` key or `task.fail` otherwise.
There is no check of a cancelled status anywhere on this path. -/
def processTask (d : TaskData) (engine : EngineOutcome) (ptime : ℚ) :
    ProcessedTask :=
  let d1 := (d.start).updateProgress 10 "准备压缩"
  let d2 := d1.updateProgress 20 "开始压缩"
  match engine with
  | .exc e => ⟨d2.fail (.str e), true⟩
  | .ok result =>
    let d3 := d2.updateProgress 90 "压缩完成，保存结果"
    if successCheck result then
      let finalResult : PyDict :=
        [("original_size_bytes", dgetD result "original_size_bytes" (.int 0)),
         ("final_size_bytes", dgetD result "final_size_bytes" (.int 0)),
         ("compression_ratio", dgetD result "compression_ratio" (.rat 1)),
         ("processing_time_seconds", .rat ptime)]
      ⟨d3.complete finalResult, true⟩
    else
      let errMsg :=
        if !List.isEmpty result
        then dgetD result "error" (.str "压缩失败")
        else .str "未知错误"
      ⟨d3.fail errMsg, true⟩

/-- One pass of `CompressionWorker._worker_loop` in which a task is
available: `get_task`, `_process_task` (mutating the shared task
object, i.e. the registry entry), then `task_done`. -/
def workerStep (st : QState) (engine : EngineOutcome) (ptime : ℚ) :
    QState × Option ProcessedTask :=
  match getTask st with
  | (st1, none) => (st1, none)
  | (st1, some id) =>
    match lookupTask st1 id with
    | none => (st1, none)
    | some d =>
      let p := processTask d engine ptime
      let st2 := { st1 with registry := updateTask st1.registry id p.task }
      (taskDone st2 id, some p)

/-! ## Concrete scenarios used by the claims' theorems -/

/-- A freshly created `CompressionTask` with the dataclass defaults
(pending, progress 0, step "等待开始", target 100 KB, method standard). -/
def freshTask (id : String) : TaskData :=
  ⟨id, id ++ ".jpg", id ++ "_compressed.jpg", 100, false, "standard",
   .pending, none, none, none, none, none, 0, "等待开始"⟩

/-- A task that has already completed. -/
def doneTask : TaskData :=
  { freshTask "t-done" with status := .completed, progressPercentage := 100 }

/-- A task currently being processed by a worker. -/
def runningTask : TaskData :=
  { freshTask "t-run" with status := .running }

/-- An empty priority queue (`TaskQueue(max_size=10, use_priority=True)`). -/
def prioQueue0 : QState := ⟨true, 10, [], [], [], 0, 0⟩

/-- The priority queue after submitting tasks with priorities low,
normal, high, in that order. -/
def prioQueue3 : QState :=
  (addTask (addTask (addTask prioQueue0
    (freshTask "t-low") .low).1
    (freshTask "t-normal") .normal).1
    (freshTask "t-high") .high).1

/-- An empty FIFO queue (`TaskQueue(max_size=0, use_priority=False)`). -/
def fifoQueue0 : QState := ⟨false, 0, [], [], [], 0, 0⟩

/-- The FIFO queue holding the single pending task `t1`. -/
def fifoQueue1 : QState := (addTask fifoQueue0 (freshTask "t1") .normal).1

/-- `fifoQueue1` after `cancel_task("t1")` succeeded. -/
def fifoCancelled : QState := (cancelTask fifoQueue1 "t1").1

/-- A queue whose registered task `t-run` is being processed (it has
been dequeued: not waiting, marked active). -/
def runningQueue : QState :=
  ⟨false, 0, [], [("t-run", runningTask)], ["t-run"], 1, 0⟩

/-- A queue holding a pending task `t1` (waiting) and a running task
`t2` (dequeued). -/
def mixedQueue : QState :=
  ⟨false, 0, [(2, "t1")],
   [("t1", freshTask "t1"), ("t2", { freshTask "t2" with status := .running })],
   ["t2"], 2, 0⟩

/-- A 50-byte input image: already far below the 100 KB default target,
so `compress_single_image` takes the direct-copy branch. -/
def smallEnv : StdEnv :=
  ⟨List.replicate 50 7, 640, 480, 1, fun _ => 0, fun _ => 0, fun _ _ => []⟩

/-- The (successful) engine result for `smallEnv`: the direct-copy
result dict of `compress_single_image`. -/
def smallOkResult : PyDict :=
  (compressSingleImage smallEnv "t1.jpg" "t1_compressed.jpg" 102400 1).1

/-- An encoder whose output exceeds the 10-byte target at every quality
level (e.g. a large noisy image against a tiny byte budget). -/
def stubbornSize : Nat → Nat := fun _ => 11

/-- An encoder whose output grows with quality: feasible up to q = 50
against a 50000-byte target. -/
def rampSize : Nat → Nat := fun q => q * 1000

/-- A 50-byte input for `compress_with_webp` whose re-encode at quality
95 is 60 bytes. -/
def c5WebpEnv : WebpEnv :=
  ⟨List.replicate 50 7, fun _ => 60, fun _ => List.replicate 60 9⟩

/-- The webp result for `c5WebpEnv` against a 100-byte target (the
input is already under the target). -/
def c5WebpRes : PyDict × List Nat :=
  compressWithWebp c5WebpEnv "a.png" "b.webp" 100 1

/-- Standard-method environment of the best-of scenario: a 200-byte
input, resized, whose resized encode fits the 100-byte target exactly
at quality 50. -/
def c7StdEnv : StdEnv :=
  ⟨List.replicate 200 1, 1000, 1000, 7071 / 10000,
   fun _ => 250,
   fun q => if q ≤ 50 then 80 else 120,
   fun _ _ => List.replicate 100 3⟩

/-- Advanced-jpeg environment of the best-of scenario: never meets the
target (150 bytes at every quality). -/
def c7AdvEnv : AdvEnv :=
  ⟨List.replicate 200 1, 1000, 1000, 7071 / 10000,
   fun _ _ => 120, fun _ _ => List.replicate 150 4⟩

/-- Webp environment of the best-of scenario: 50 bytes at every
quality, well under the 100-byte target. -/
def c7WebpEnv : WebpEnv :=
  ⟨List.replicate 200 1, fun _ => 50, fun _ => List.replicate 50 5⟩

/-- The three method results of the best-of scenario, in the order
`compress_with_best_method` runs them. -/
def c7Std : PyDict := (compressSingleImage c7StdEnv "x.jpg" "x_standard.jpg" 100 1).1

def c7Adv : PyDict := (compressWithAdvancedJpeg c7AdvEnv "x.jpg" "x_advanced.jpg" 100 1).1

def c7Webp : PyDict := (compressWithWebp c7WebpEnv "x.jpg" "x_webp.webp" 100 1).1

def c7Methods : List PyDict := [c7Std, c7Adv, c7Webp]

/-- The value of `c7Std` with every entry evaluated (proved equal to
`c7Std` below): quality 50, final size 100 = target, achieved. -/
def c7StdDict : PyDict :=
  [("input_path", .str "x.jpg"),
   ("output_path", .str "x_standard.jpg"),
   ("original_size_bytes", .int 200),
   ("final_size_bytes", .int 100),
   ("compression_ratio", .rat 2),
   ("quality_used", .int 50),
   ("dimensions_original", .pair (1000, 1000)),
   ("dimensions_final", .pair (706, 706)),
   ("resize_applied", .bool true),
   ("processing_time_seconds", .rat 1),
   ("target_achieved", .bool true),
   ("method", .str "smart_compression")]

/-! ## Helper lemmas: the quality binary search -/

theorem qualitySearch_tested_length (size : Nat → Nat) (target : Nat) :
    ∀ (fuel low high best : Nat) (bsz : Option Nat),
      (qualitySearch size target fuel low high best bsz).tested.length ≤ fuel := by
  intro fuel
  induction fuel with
  | zero => intro low high best bsz; simp [qualitySearch]
  | succ n ih =>
    intro low high best bsz
    by_cases hlh : low ≤ high
    · by_cases hs : size ((low + high) / 2) ≤ target
      · simpa [qualitySearch, hlh, hs, Nat.succ_le_succ] using
          Nat.succ_le_succ (ih _ _ _ _)
      · simpa [qualitySearch, hlh, hs, Nat.succ_le_succ] using
          Nat.succ_le_succ (ih _ _ _ _)
    · simp [qualitySearch, hlh]

theorem qualitySearch_tested_bounds (size : Nat → Nat) (target : Nat) :
    ∀ (fuel low high best : Nat) (bsz : Option Nat) (q : Nat),
      q ∈ (qualitySearch size target fuel low high best bsz).tested →
      low ≤ q ∧ q ≤ high := by
  intro fuel
  induction fuel with
  | zero => intro low high best bsz q hq; simp [qualitySearch] at hq
  | succ n ih =>
    intro low high best bsz q hq
    by_cases hlh : low ≤ high
    · by_cases hs : size ((low + high) / 2) ≤ target
      · simp only [qualitySearch, if_pos hlh, if_pos hs, List.mem_cons] at hq
        rcases hq with rfl | hq
        · omega
        · have := ih _ _ _ _ _ hq
          omega
      · simp only [qualitySearch, if_pos hlh, if_neg hs, List.mem_cons] at hq
        rcases hq with rfl | hq
        · omega
        · have := ih _ _ _ _ _ hq
          omega
    · simp [qualitySearch, hlh] at hq

theorem qualitySearch_best_cases (size : Nat → Nat) (target : Nat) :
    ∀ (fuel low high best : Nat) (bsz : Option Nat),
      (qualitySearch size target fuel low high best bsz).bestQuality = best ∨
      ((qualitySearch size target fuel low high best bsz).bestQuality ∈
         (qualitySearch size target fuel low high best bsz).tested ∧
       size (qualitySearch size target fuel low high best bsz).bestQuality ≤ target) := by
  intro fuel
  induction fuel with
  | zero => intro low high best bsz; left; rfl
  | succ n ih =>
    intro low high best bsz
    by_cases hlh : low ≤ high
    · by_cases hs : size ((low + high) / 2) ≤ target
      · simp only [qualitySearch, if_pos hlh, if_pos hs, List.mem_cons]
        rcases ih ((low + high) / 2 + 1) high ((low + high) / 2)
            (some (size ((low + high) / 2))) with hb | ⟨hmem, hsz⟩
        · right
          refine ⟨Or.inl hb, ?_⟩
          rw [hb]; exact hs
        · right
          exact ⟨Or.inr hmem, hsz⟩
      · simp only [qualitySearch, if_pos hlh, if_neg hs, List.mem_cons]
        rcases ih low ((low + high) / 2 - 1) best bsz with hb | ⟨hmem, hsz⟩
        · left; exact hb
        · right; exact ⟨Or.inr hmem, hsz⟩
    · simp [qualitySearch, hlh]

theorem qualitySearch_best_feasible (size : Nat → Nat) (target : Nat) :
    ∀ (fuel low high best : Nat) (bsz : Option Nat),
      (∃ q ∈ (qualitySearch size target fuel low high best bsz).tested,
          size q ≤ target) →
      (qualitySearch size target fuel low high best bsz).bestQuality ∈
        (qualitySearch size target fuel low high best bsz).tested ∧
      size (qualitySearch size target fuel low high best bsz).bestQuality ≤ target := by
  intro fuel
  induction fuel with
  | zero => intro low high best bsz h; simp [qualitySearch] at h
  | succ n ih =>
    intro low high best bsz hex
    by_cases hlh : low ≤ high
    · by_cases hs : size ((low + high) / 2) ≤ target
      · simp only [qualitySearch, if_pos hlh, if_pos hs, List.mem_cons]
        rcases qualitySearch_best_cases size target n ((low + high) / 2 + 1) high
            ((low + high) / 2) (some (size ((low + high) / 2))) with hb | ⟨hmem, hsz⟩
        · refine ⟨Or.inl hb, ?_⟩
          rw [hb]; exact hs
        · exact ⟨Or.inr hmem, hsz⟩
      · simp only [qualitySearch, if_pos hlh, if_neg hs, List.mem_cons] at hex ⊢
        obtain ⟨q, hq, hqs⟩ := hex
        rcases hq with rfl | hq
        · exact absurd hqs hs
        · have := ih low ((low + high) / 2 - 1) best bsz ⟨q, hq, hqs⟩
          exact ⟨Or.inr this.1, this.2⟩
    · simp [qualitySearch, hlh] at hex

theorem qualitySearch_best_max (size : Nat → Nat) (target : Nat) :
    ∀ (fuel low high best : Nat) (bsz : Option Nat) (q : Nat),
      q ∈ (qualitySearch size target fuel low high best bsz).tested →
      size q ≤ target →
      q ≤ (qualitySearch size target fuel low high best bsz).bestQuality := by
  intro fuel
  induction fuel with
  | zero => intro low high best bsz q hq; simp [qualitySearch] at hq
  | succ n ih =>
    intro low high best bsz q hq hqs
    by_cases hlh : low ≤ high
    · by_cases hs : size ((low + high) / 2) ≤ target
      · simp only [qualitySearch, if_pos hlh, if_pos hs, List.mem_cons] at hq ⊢
        rcases hq with rfl | hq
        · rcases qualitySearch_best_cases size target n ((low + high) / 2 + 1) high
              ((low + high) / 2) (some (size ((low + high) / 2))) with hb | ⟨hmem, _⟩
          · exact hb.ge
          · have := qualitySearch_tested_bounds size target n ((low + high) / 2 + 1)
              high ((low + high) / 2) (some (size ((low + high) / 2))) _ hmem
            omega
        · exact ih _ _ _ _ _ hq hqs
      · simp only [qualitySearch, if_pos hlh, if_neg hs, List.mem_cons] at hq ⊢
        rcases hq with rfl | hq
        · exact absurd hqs hs
        · exact ih _ _ _ _ _ hq hqs
    · simp [qualitySearch, hlh] at hq

/-! ## C3: the quality search's postcondition -/

/-- C3 (counterexample): for an image of 20 bytes against a 10-byte
target whose encoder produces 11 bytes at every quality level, the
quality search returns its initial value 95, whose encoded size is 11 >
10 — so `calculate_quality_parameter` does not always return a quality
level whose encoded size is ≤ the target. -/
theorem c3_counterexample :
    10 < 20 ∧
    (calculateQualityParameter 20 stubbornSize 10).1 = 95 ∧
    10 < stubbornSize ((calculateQualityParameter 20 stubbornSize 10).1) ∧
    (calculateQualityParameter 20 stubbornSize 10).2 = none := by
  decide

/-- C3 (amended): for an input exceeding the target, the search runs
the integer binary search over `[1, 95]` for at most `maxIterations`
(20, resp. 15) iterations, and **provided at least one tested quality
level meets the target**, it returns a feasible tested level that is
maximal among the feasible tested levels; with no feasible tested
level it returns the initial value 95 (see the counterexample). -/
theorem c3_quality_search_postcondition (size : Nat → Nat)
    (fileSize target fuel : Nat)
    (hfeas : ∃ q ∈ (qualitySearch size target fuel 1 95 95 none).tested,
        size q ≤ target) :
    (qualitySearch size target fuel 1 95 95 none).tested.length ≤ fuel ∧
    (∀ q ∈ (qualitySearch size target fuel 1 95 95 none).tested,
        1 ≤ q ∧ q ≤ 95) ∧
    (qualitySearch size target fuel 1 95 95 none).bestQuality ∈
      (qualitySearch size target fuel 1 95 95 none).tested ∧
    size ((qualitySearch size target fuel 1 95 95 none).bestQuality) ≤ target ∧
    (∀ q ∈ (qualitySearch size target fuel 1 95 95 none).tested,
        size q ≤ target →
        q ≤ (qualitySearch size target fuel 1 95 95 none).bestQuality) ∧
    (target < fileSize →
      (calculateQualityParameter fileSize size target fuel).1 =
        (qualitySearch size target fuel 1 95 95 none).bestQuality) ∧
    qualityForResizedImage size target fuel =
      (qualitySearch size target fuel 1 95 95 none).bestQuality := by
  obtain ⟨hmem, hsz⟩ := qualitySearch_best_feasible size target fuel 1 95 95 none hfeas
  refine ⟨qualitySearch_tested_length size target fuel 1 95 95 none,
    fun q hq => qualitySearch_tested_bounds size target fuel 1 95 95 none q hq,
    hmem, hsz,
    fun q hq hqs => qualitySearch_best_max size target fuel 1 95 95 none q hq hqs,
    fun hlt => ?_, rfl⟩
  unfold calculateQualityParameter
  rw [if_neg (by omega)]

/-- Witness for C3's amended theorem: an encoder growing linearly in
quality against a 50000-byte target; quality 48 is tested and feasible,
and the search returns 50, the maximal feasible tested level. -/
theorem c3_quality_search_postcondition_witness :
    (∃ q ∈ (qualitySearch rampSize 50000 20 1 95 95 none).tested,
        rampSize q ≤ 50000) ∧
    50000 < 60000 ∧
    (qualitySearch rampSize 50000 20 1 95 95 none).bestQuality ∈
      (qualitySearch rampSize 50000 20 1 95 95 none).tested ∧
    rampSize ((qualitySearch rampSize 50000 20 1 95 95 none).bestQuality) ≤ 50000 ∧
    (calculateQualityParameter 60000 rampSize 50000 20).1 =
      (qualitySearch rampSize 50000 20 1 95 95 none).bestQuality := by
  have hfeas : ∃ q ∈ (qualitySearch rampSize 50000 20 1 95 95 none).tested,
      rampSize q ≤ 50000 := by decide
  have h := c3_quality_search_postcondition rampSize 60000 50000 20 hfeas
  exact ⟨hfeas, by decide, h.2.2.1, h.2.2.2.1, h.2.2.2.2.2.1 (by decide)⟩

/-! ## Helper lemmas: resolution scaling -/

theorem evenDown_le (n : Nat) : evenDown n ≤ n := by
  unfold evenDown; split <;> omega

theorem le_evenDown_succ (n : Nat) : n ≤ evenDown n + 1 := by
  unfold evenDown; split <;> omega

theorem preDim_bounds (n : Nat) (sf : ℚ) (hsf : 0 ≤ sf)
    (h32 : 32 ≤ preDim n sf) :
    ((preDim n sf : ℚ) ≤ (n : ℚ) * sf) ∧
    ((n : ℚ) * sf < (preDim n sf : ℚ) + 2) := by
  have hq : (0 : ℚ) ≤ (n : ℚ) * sf := mul_nonneg (Nat.cast_nonneg n) hsf
  have hpy : pyInt ((n : ℚ) * sf) = ⌊(n : ℚ) * sf⌋ := by
    unfold pyInt; rw [if_neg (not_lt.mpr hq)]
  have hfl : (0 : ℤ) ≤ ⌊(n : ℚ) * sf⌋ := Int.floor_nonneg.mpr hq
  set a := pyIntNat ((n : ℚ) * sf) with ha
  have haz : (a : ℤ) = ⌊(n : ℚ) * sf⌋ := by
    rw [ha]; unfold pyIntNat; rw [hpy]; exact Int.toNat_of_nonneg hfl
  have ha1 : 1 ≤ a := by
    by_contra hcon
    have hz : a = 0 := by omega
    have hp : preDim n sf = 0 := by
      unfold preDim; rw [← ha, hz]; decide
    omega
  have hpre : preDim n sf = evenDown a := by
    unfold preDim; rw [← ha, Nat.max_eq_right ha1]
  have hcast1 : ((a : ℚ)) ≤ (n : ℚ) * sf := by
    have hfle := Int.floor_le ((n : ℚ) * sf)
    rw [← haz] at hfle
    exact_mod_cast hfle
  have hcast2 : (n : ℚ) * sf < (a : ℚ) + 1 := by
    have hlt := Int.lt_floor_add_one ((n : ℚ) * sf)
    rw [← haz] at hlt
    exact_mod_cast hlt
  constructor
  · rw [hpre]
    have h1 : ((evenDown a : ℚ)) ≤ (a : ℚ) := by exact_mod_cast evenDown_le a
    linarith
  · rw [hpre]
    have h2 : ((a : ℚ)) ≤ (evenDown a : ℚ) + 1 := by
      exact_mod_cast le_evenDown_succ a
    linarith

theorem aspect_of_preDims (w h : Nat) (sf : ℚ) (hsf : 0 ≤ sf)
    (hw : 32 ≤ preDim w sf) (hh : 32 ≤ preDim h sf) :
    aspectWithinTolerance w h (preDim w sf) (preDim h sf) := by
  obtain ⟨hw1, hw2⟩ := preDim_bounds w sf hsf hw
  obtain ⟨hh1, hh2⟩ := preDim_bounds h sf hsf hh
  have h0w : (0 : ℚ) ≤ (w : ℚ) := Nat.cast_nonneg w
  have h0h : (0 : ℚ) ≤ (h : ℚ) := Nat.cast_nonneg h
  unfold aspectWithinTolerance
  rw [abs_le]
  constructor
  · nlinarith [mul_le_mul_of_nonneg_right hh1 h0w,
      mul_le_mul_of_nonneg_right hw2.le h0h]
  · nlinarith [mul_le_mul_of_nonneg_right hw1 h0h,
      mul_le_mul_of_nonneg_right hh2.le h0w]

/-! ## C8: resolution scaling -/

/-- C8 (counterexample): a 3200 × 100 image of 1 MB against a 1-byte
target — the exact scale factor is 1/1000 — is scaled to 32 × 32: both
dimensions respect the 32 px floor, but the aspect ratio 32:1 collapses
to 1:1, far outside any rounding tolerance. -/
theorem c8_counterexample :
    1 < 1000000 ∧
    ((1 : ℚ) / 1000) ^ 2 * 1000000 = 1 ∧
    calculateOptimalDimensions 3200 100 1 1000000 (1 / 1000) = (32, 32) ∧
    ¬ aspectWithinTolerance 3200 100 32 32 := by
  refine ⟨by norm_num, by norm_num, ?_, ?_⟩
  · norm_num [calculateOptimalDimensions, preDim, pyIntNat, pyInt, evenDown]
  · unfold aspectWithinTolerance
    norm_num

/-- C8 (amended): whenever scaling applies (current size strictly above
the target), neither returned dimension is below 32 px; the aspect
ratio is preserved within rounding tolerance when the computed even
dimensions stay at or above the 32 px floor, but when the floor
engages, the dimensions are clamped and the ratio can be distorted
arbitrarily (see the counterexample). -/
theorem c8_dimensions (w h target current : Nat) (f : ℚ)
    (ht : target < current) :
    32 ≤ (calculateOptimalDimensions w h target current f).1 ∧
    32 ≤ (calculateOptimalDimensions w h target current f).2 ∧
    (0 ≤ f →
      32 ≤ preDim w (min 1 f) →
      32 ≤ preDim h (min 1 f) →
      aspectWithinTolerance w h
        (calculateOptimalDimensions w h target current f).1
        (calculateOptimalDimensions w h target current f).2) := by
  have hns : ¬ current ≤ target := not_le.mpr ht
  simp only [calculateOptimalDimensions, if_neg hns]
  by_cases hbr : preDim w (min 1 f) < 32 ∨ preDim h (min 1 f) < 32
  · rw [if_pos hbr]
    by_cases hasp : 1 < (w : ℚ) / (h : ℚ)
    · rw [if_pos hasp]
      exact ⟨le_refl 32, le_max_left 32 _, fun _ h1 h2 => by omega⟩
    · rw [if_neg hasp]
      exact ⟨le_max_left 32 _, le_refl 32, fun _ h1 h2 => by omega⟩
  · rw [if_neg hbr]
    push_neg at hbr
    exact ⟨hbr.1, hbr.2, fun hf h1 h2 =>
      aspect_of_preDims w h (min 1 f) (le_min zero_le_one hf) h1 h2⟩

/-- Witness for C8's amended theorem: a 1000 × 1000 image with scale
factor 1/2 lands at 500 × 500, above the floor, with the aspect ratio
exactly preserved. -/
theorem c8_dimensions_witness :
    (1 : Nat) < 2 ∧ (0 : ℚ) ≤ 1 / 2 ∧
    32 ≤ preDim 1000 (min 1 ((1 : ℚ) / 2)) ∧
    32 ≤ (calculateOptimalDimensions 1000 1000 1 2 (1 / 2)).1 ∧
    aspectWithinTolerance 1000 1000
      (calculateOptimalDimensions 1000 1000 1 2 (1 / 2)).1
      (calculateOptimalDimensions 1000 1000 1 2 (1 / 2)).2 := by
  have hp : 32 ≤ preDim 1000 (min 1 ((1 : ℚ) / 2)) := by
    norm_num [preDim, pyIntNat, pyInt, evenDown]
    decide
  have h := c8_dimensions 1000 1000 1 2 (1 / 2) (by norm_num)
  exact ⟨by norm_num, by norm_num, hp, h.1, h.2.2 (by norm_num) hp hp⟩

/-! ## C4: terminal statuses are not protected -/

/-- C4 (counterexample): calling `cancel()` on a completed task changes
its status to cancelled, and `start()` on it yields running — the
transition out of the terminal state is applied, not rejected. -/
theorem c4_counterexample :
    doneTask.isFinished = true ∧
    doneTask.status = .completed ∧
    (TaskData.cancel doneTask).status = .cancelled ∧
    TaskData.cancel doneTask ≠ doneTask ∧
    (TaskData.start doneTask).status = .running := by
  refine ⟨rfl, rfl, rfl, ?_, rfl⟩
  intro hcontra
  have hst := congrArg TaskData.status hcontra
  simp only [TaskData.cancel] at hst
  exact absurd hst (by decide)

/-- C4 (amended): the four lifecycle methods of `CompressionTask` are
unguarded setters — each establishes its target status whatever the
current status, so a terminal status can change again (no transition is
rejected). -/
theorem c4_lifecycle_unguarded (d : TaskData) (result : PyDict) (msg : PyVal) :
    (TaskData.start d).status = .running ∧
    (TaskData.complete d result).status = .completed ∧
    (TaskData.fail d msg).status = .failed ∧
    (TaskData.cancel d).status = .cancelled :=
  ⟨rfl, rfl, rfl, rfl⟩

/-! ## C9: priority ordering -/

/-- C9: with the queue in priority mode, submitting tasks with
priorities low, normal, high in that order and dequeuing three times
yields them in the order high, normal, low, matching the priority
ordering low < normal < high < urgent of `TaskPriority`. -/
theorem c9_priority_order :
    TPriority.low.val < TPriority.normal.val ∧
    TPriority.normal.val < TPriority.high.val ∧
    TPriority.high.val < TPriority.urgent.val ∧
    prioQueue3.usePriority = true ∧
    (getTask prioQueue3).2 = some "t-high" ∧
    (getTask (getTask prioQueue3).1).2 = some "t-normal" ∧
    (getTask (getTask (getTask prioQueue3).1).1).2 = some "t-low" ∧
    (getTask (getTask (getTask prioQueue3).1).1).1.waiting = [] := by
  decide

/-! ## C1: the worker never sees an engine success -/

/-- C1 (code bug): no engine method stores a `'success'` key in its
result dict, but the worker completes a task only on a truthy
`result.get('success', False)` — so even a successful direct copy
(`target_achieved = True`) leaves the task failed with the error
message "压缩失败" and progress 0, never completed with progress 100. -/
theorem c1_worker_drops_engine_success :
    (∀ (env : StdEnv) (inP outP : String) (target : Nat) (ptime : ℚ),
        dget (compressSingleImage env inP outP target ptime).1 "success" = none) ∧
    (∀ (env : WebpEnv) (inP outP : String) (target : Nat) (ptime : ℚ),
        dget (compressWithWebp env inP outP target ptime).1 "success" = none) ∧
    (∀ (env : AdvEnv) (inP outP : String) (target : Nat) (ptime : ℚ),
        dget (compressWithAdvancedJpeg env inP outP target ptime).1 "success" = none) ∧
    dget smallOkResult "target_achieved" = some (.bool true) ∧
    dget smallOkResult "method" = some (.str "direct_copy") ∧
    successCheck smallOkResult = false ∧
    (processTask (freshTask "t1") (.ok smallOkResult) 1).task.status = .failed ∧
    (processTask (freshTask "t1") (.ok smallOkResult) 1).task.errorMessage =
      some (.str "压缩失败") ∧
    (processTask (freshTask "t1") (.ok smallOkResult) 1).task.progressPercentage = 0 := by
  refine ⟨?_, ?_, ?_, rfl, rfl, rfl, rfl, rfl, rfl⟩
  · intro env inP outP target ptime
    by_cases h : env.inputBytes.length ≤ target
    · simp only [compressSingleImage, if_pos h]; rfl
    · simp only [compressSingleImage, if_neg h]; rfl
  · intro env inP outP target ptime
    by_cases h : env.inputBytes.length ≤ target
    · simp only [compressWithWebp, if_pos h]; rfl
    · simp only [compressWithWebp, if_neg h]; rfl
  · intro env inP outP target ptime
    rfl

/-! ## C2: a cancelled, dequeued task is still processed -/

/-- C2 (code bug): `_worker_loop` and `_process_task` never check for a
cancelled status; after `cancel_task` succeeds on the pending task `t1`,
the worker that dequeues it still starts it (cancelled → running), still
invokes the compression engine, and leaves it failed — its terminal
status is not cancelled, contrary to the cancellation guarantee. -/
theorem c2_cancelled_task_still_processed :
    (cancelTask fifoQueue1 "t1").2 = true ∧
    (lookupTask fifoCancelled "t1").map TaskData.status = some .cancelled ∧
    (TaskData.start ((freshTask "t1").cancel)).status = .running ∧
    (workerStep fifoCancelled (.ok smallOkResult) 1).2.map
      ProcessedTask.engineInvoked = some true ∧
    (workerStep fifoCancelled (.ok smallOkResult) 1).2.map
      (fun p => p.task.status) = some .failed ∧
    (lookupTask (workerStep fifoCancelled (.ok smallOkResult) 1).1 "t1").map
      TaskData.status = some .failed ∧
    (∀ (d : TaskData) (engine : EngineOutcome) (ptime : ℚ),
        (processTask d engine ptime).engineInvoked = true ∧
        ((processTask d engine ptime).task.status = .completed ∨
         (processTask d engine ptime).task.status = .failed)) := by
  refine ⟨rfl, rfl, rfl, rfl, rfl, rfl, ?_⟩
  intro d engine ptime
  match engine with
  | .exc e => exact ⟨rfl, Or.inr rfl⟩
  | .ok result =>
    by_cases h : successCheck result
    · simp only [processTask, if_pos h]
      exact ⟨trivial, Or.inl rfl⟩
    · simp only [processTask, if_neg h]
      exact ⟨trivial, Or.inr rfl⟩

/-! ## C5: direct copy for small inputs -/

/-- C5 (counterexample): for a 50-byte input already under its 100-byte
target, `compress_with_webp` does not direct-copy: it re-encodes at
quality 95 (here to 60 bytes), reports ratio 50/60 ≠ 1.0, stores no
`target_achieved` flag at all, and writes output bytes different from
the input. -/
theorem c5_counterexample :
    c5WebpEnv.inputBytes.length ≤ 100 ∧
    dget c5WebpRes.1 "method" = some (.str "webp_high_quality") ∧
    dget c5WebpRes.1 "target_achieved" = none ∧
    dget c5WebpRes.1 "compression_ratio" =
      some (.rat (((50 : Nat) : ℚ) / ((60 : Nat) : ℚ))) ∧
    (((50 : Nat) : ℚ) / ((60 : Nat) : ℚ)) ≠ 1 ∧
    c5WebpRes.2 ≠ c5WebpEnv.inputBytes := by
  refine ⟨by decide, rfl, rfl, rfl, by push_cast; norm_num, by decide⟩

/-- C5 (amended): for an input whose size is already ≤ the target, the
standard engine (`compress_single_image`) direct-copies — ratio 1.0,
`target_achieved = true`, byte-identical output — but the webp engine
(`compress_with_webp`) instead re-encodes at quality 95, reporting
method `webp_high_quality`, storing no achieved flag, and writing the
re-encoded bytes. -/
theorem c5_direct_copy (env : StdEnv) (inP outP : String) (target : Nat)
    (ptime : ℚ) (hsmall : env.inputBytes.length ≤ target) :
    dget (compressSingleImage env inP outP target ptime).1 "method" =
      some (.str "direct_copy") ∧
    dget (compressSingleImage env inP outP target ptime).1 "compression_ratio" =
      some (.rat 1) ∧
    dget (compressSingleImage env inP outP target ptime).1 "target_achieved" =
      some (.bool true) ∧
    dget (compressSingleImage env inP outP target ptime).1 "final_size_bytes" =
      some (.int env.inputBytes.length) ∧
    (compressSingleImage env inP outP target ptime).2 = env.inputBytes ∧
    (∀ wenv : WebpEnv, wenv.inputBytes.length ≤ target →
      dget (compressWithWebp wenv inP outP target ptime).1 "method" =
        some (.str "webp_high_quality") ∧
      dget (compressWithWebp wenv inP outP target ptime).1 "quality_used" =
        some (.int 95) ∧
      dget (compressWithWebp wenv inP outP target ptime).1 "target_achieved" =
        none ∧
      (compressWithWebp wenv inP outP target ptime).2 = wenv.webpSaved 95) := by
  refine ⟨?_, ?_, ?_, ?_, ?_, ?_⟩
  · simp only [compressSingleImage, if_pos hsmall]; rfl
  · simp only [compressSingleImage, if_pos hsmall]; rfl
  · simp only [compressSingleImage, if_pos hsmall]; rfl
  · simp only [compressSingleImage, if_pos hsmall]; rfl
  · simp only [compressSingleImage, if_pos hsmall]
  · intro wenv hw
    refine ⟨?_, ?_, ?_, ?_⟩
    · simp only [compressWithWebp, if_pos hw]; rfl
    · simp only [compressWithWebp, if_pos hw]; rfl
    · simp only [compressWithWebp, if_pos hw]; rfl
    · simp only [compressWithWebp, if_pos hw]

/-- Witness for C5's amended theorem: the 50-byte input of `smallEnv`
against the 100 KB default target. -/
theorem c5_direct_copy_witness :
    smallEnv.inputBytes.length ≤ 102400 ∧
    dget smallOkResult "method" = some (.str "direct_copy") ∧
    dget smallOkResult "compression_ratio" = some (.rat 1) ∧
    (compressSingleImage smallEnv "t1.jpg" "t1_compressed.jpg" 102400 1).2 =
      smallEnv.inputBytes := by
  have h := c5_direct_copy smallEnv "t1.jpg" "t1_compressed.jpg" 102400 1 (by decide)
  exact ⟨by decide, h.1, h.2.1, h.2.2.2.2.1⟩

/-! ## Helper lemmas: the registry -/

theorem find_map_keys (g : String × TaskData → String × TaskData)
    (hg : ∀ kv, (g kv).fst = kv.fst) (reg : List (String × TaskData))
    (j : String) :
    List.find? (fun kv => kv.fst == j) (List.map g reg) =
    (List.find? (fun kv => kv.fst == j) reg).map g := by
  induction reg with
  | nil => rfl
  | cons kv rest ih =>
    rw [List.map_cons]
    by_cases hj : (kv.fst == j) = true
    · rw [List.find?_cons_of_pos (p := fun kv : String × TaskData => kv.fst == j) _
          (by simpa [hg] using hj),
        List.find?_cons_of_pos (p := fun kv : String × TaskData => kv.fst == j) _ hj,
        Option.map_some']
    · rw [List.find?_cons_of_neg (p := fun kv : String × TaskData => kv.fst == j) _
          (by simpa [hg] using hj),
        List.find?_cons_of_neg (p := fun kv : String × TaskData => kv.fst == j) _
          (by simpa using hj), ih]

theorem updateTask_is_map (reg : List (String × TaskData)) (id : String)
    (d : TaskData) :
    updateTask reg id d =
      reg.map (fun kv => if kv.fst == id then (kv.fst, d) else kv) := rfl

theorem regFind_updateTask_ne (reg : List (String × TaskData))
    (id j : String) (d : TaskData) (h : j ≠ id) :
    regFind (updateTask reg id d) j = regFind reg j := by
  unfold regFind
  rw [updateTask_is_map,
    find_map_keys _ (fun kv => by by_cases hk : kv.fst = id <;> simp [hk]) reg j]
  cases hfind : List.find? (fun kv => kv.fst == j) reg with
  | none => rfl
  | some kv =>
    have hkv := List.find?_some hfind
    have hkj : kv.fst = j := by simpa using hkv
    have hne : ¬ kv.fst = id := by rw [hkj]; exact h
    simp [hne]

theorem regFind_updateTask_self (reg : List (String × TaskData))
    (id : String) (d : TaskData) :
    regFind (updateTask reg id d) id = (regFind reg id).map (fun _ => d) := by
  unfold regFind
  rw [updateTask_is_map,
    find_map_keys _ (fun kv => by by_cases hk : kv.fst = id <;> simp [hk]) reg id]
  cases hfind : List.find? (fun kv => kv.fst == id) reg with
  | none => rfl
  | some kv =>
    have hkv := List.find?_some hfind
    have hkid : kv.fst = id := by simpa using hkv
    simp [hkid]

theorem updateTask_keys (reg : List (String × TaskData)) (id : String)
    (d : TaskData) :
    (updateTask reg id d).map Prod.fst = reg.map Prod.fst := by
  rw [updateTask_is_map, List.map_map]
  apply List.map_congr_left
  intro kv _
  by_cases hk : kv.fst = id <;> simp [hk]

/-- `regFind` through a key-preserving per-entry rewrite of the
registry: the found entry is rewritten pointwise. -/
theorem regFind_map (g : String × TaskData → String × TaskData)
    (hg : ∀ kv, (g kv).fst = kv.fst) (reg : List (String × TaskData))
    (j : String) :
    regFind (List.map g reg) j = (regFind reg j).map (fun d =>
      match List.find? (fun kv => kv.fst == j) reg with
      | some kv => (g kv).snd
      | none => d) := by
  unfold regFind
  rw [find_map_keys g hg reg j]
  cases hfind : List.find? (fun kv => kv.fst == j) reg with
  | none => rfl
  | some kv => simp

/-! ## C6: cancellation only from pending — except `clear` -/

/-- C6 (counterexample): `clear()` cancels every non-terminal registered
task, including a running one — so a queue operation does move a running
task to cancelled. -/
theorem c6_counterexample :
    (lookupTask runningQueue "t-run").map TaskData.status = some .running ∧
    (lookupTask (clearQueue runningQueue) "t-run").map TaskData.status =
      some .cancelled := by
  exact ⟨rfl, rfl⟩

/-- C6 (amended): `cancel_task` succeeds iff the task exists with status
pending, and neither `cancel_task` nor `cancel_all_pending` ever touches
a running task; `clear()`, however, cancels every non-terminal task,
running ones included. -/
theorem c6_cancel_only_pending (st : QState) (id : String) :
    ((cancelTask st id).2 = true ↔
      ∃ d, lookupTask st id = some d ∧ d.status = .pending) ∧
    (∀ j d, lookupTask st j = some d → d.status = .running →
      lookupTask (cancelTask st id).1 j = some d) ∧
    (∀ j d, lookupTask st j = some d → d.status = .running →
      lookupTask (cancelAllPending st).1 j = some d) ∧
    (∀ j d, lookupTask st j = some d → d.status = .running →
      lookupTask (clearQueue st) j = some d.cancel) := by
  refine ⟨⟨?_, ?_⟩, ?_, ?_, ?_⟩
  · intro htrue
    cases h0 : lookupTask st id with
    | none =>
      simp only [cancelTask, h0] at htrue
      exact absurd htrue (by decide)
    | some d0 =>
      refine ⟨d0, rfl, ?_⟩
      by_contra hp
      simp only [cancelTask, h0, if_neg hp] at htrue
      exact absurd htrue (by decide)
  · rintro ⟨d, hd, hp⟩
    simp only [cancelTask, hd, if_pos hp]
  · intro j d hj hrun
    cases h0 : lookupTask st id with
    | none => simp only [cancelTask, h0]; exact hj
    | some d0 =>
      by_cases hp : d0.status = .pending
      · simp only [cancelTask, h0, if_pos hp]
        by_cases hji : j = id
        · exfalso
          rw [hji, h0] at hj
          injection hj with he
          rw [he, hrun] at hp
          exact absurd hp (by decide)
        · show regFind (updateTask st.registry id d0.cancel) j = some d
          rw [regFind_updateTask_ne _ _ _ _ hji]
          exact hj
      · simp only [cancelTask, h0, if_neg hp]; exact hj
  · intro j d hj hrun
    show regFind (st.registry.map _) j = some d
    unfold lookupTask regFind at hj
    unfold regFind
    rw [find_map_keys _
      (fun kv => by by_cases hk : kv.snd.status = TStatus.pending <;> simp [hk])]
    cases hfind : List.find? (fun kv => kv.fst == j) st.registry with
    | none => rw [hfind] at hj; simp at hj
    | some kv =>
      rw [hfind] at hj
      simp only [Option.map_some', Option.some.injEq] at hj
      have hnp : ¬ kv.snd.status = TStatus.pending := by
        rw [hj, hrun]; decide
      simp only [Option.map_some', Option.some.injEq]
      rw [if_neg hnp]
      exact hj
  · intro j d hj hrun
    show regFind (st.registry.map _) j = some d.cancel
    unfold lookupTask regFind at hj
    unfold regFind
    rw [find_map_keys _
      (fun kv => by by_cases hk : kv.snd.isFinished <;> simp [hk])]
    cases hfind : List.find? (fun kv => kv.fst == j) st.registry with
    | none => rw [hfind] at hj; simp at hj
    | some kv =>
      rw [hfind] at hj
      simp only [Option.map_some', Option.some.injEq] at hj
      have hnf : kv.snd.isFinished = false := by
        rw [hj]; unfold TaskData.isFinished; rw [hrun]
      simp only [Option.map_some', Option.some.injEq]
      rw [if_neg (by rw [hnf]; decide)]
      rw [hj]

/-- Witness for C6's amended theorem, at the concrete `mixedQueue`:
cancelling its pending task `t1` succeeds, `cancel_all_pending` leaves
its running task `t2` alone, and `clear` cancels `t2`. -/
theorem c6_cancel_only_pending_witness :
    (cancelTask mixedQueue "t1").2 = true ∧
    (lookupTask (cancelAllPending mixedQueue).1 "t2").map TaskData.status =
      some .running ∧
    (lookupTask (clearQueue mixedQueue) "t2").map TaskData.status =
      some .cancelled := by
  have h := c6_cancel_only_pending mixedQueue "t1"
  refine ⟨h.1.mpr ⟨freshTask "t1", rfl, rfl⟩, ?_, ?_⟩
  · rw [h.2.2.1 "t2" ({ freshTask "t2" with status := .running }) rfl rfl]
    rfl
  · rw [h.2.2.2 "t2" ({ freshTask "t2" with status := .running }) rfl rfl]
    rfl

/-! ## C10: cancellation's frame -/

theorem getTask_fifo_head (st : QState) (p : Nat) (id : String)
    (rest : List (Nat × String)) (hup : st.usePriority = false)
    (hw : st.waiting = (p, id) :: rest) :
    (getTask st).2 = some id ∧
    (getTask st).1.waiting = rest ∧
    (getTask st).1.registry = st.registry ∧
    (getTask st).1.active.contains id = true := by
  simp only [getTask, hw, hup, Bool.false_eq_true, if_false, List.get?,
    List.eraseIdx]
  refine ⟨trivial, trivial, trivial, ?_⟩
  by_cases hc : id ∈ st.active
  · simp [hc]
  · simp [hc]

/-- C10: `cancel_task` (and `cancel_all_pending`) mutate only the
affected tasks' own lifecycle fields: the waiting queue, active set,
counters and registry keys are unchanged, every other task is
untouched, the identity and input fields of the cancelled task are
kept, and a later `get_task` (FIFO head shown here) still returns the
cancelled task and marks its id active. -/
theorem c10_cancel_frame (st : QState) (id : String) (d : TaskData)
    (hd : lookupTask st id = some d) (hp : d.status = .pending) :
    (cancelTask st id).2 = true ∧
    (cancelTask st id).1.waiting = st.waiting ∧
    (cancelTask st id).1.active = st.active ∧
    (cancelTask st id).1.totalAdded = st.totalAdded ∧
    (cancelTask st id).1.totalCompleted = st.totalCompleted ∧
    (cancelTask st id).1.registry.map Prod.fst = st.registry.map Prod.fst ∧
    (∀ j, j ≠ id → lookupTask (cancelTask st id).1 j = lookupTask st j) ∧
    lookupTask (cancelTask st id).1 id = some d.cancel ∧
    d.cancel.taskId = d.taskId ∧
    d.cancel.inputPath = d.inputPath ∧
    d.cancel.outputPath = d.outputPath ∧
    d.cancel.targetSizeKb = d.targetSizeKb ∧
    (cancelAllPending st).1.waiting = st.waiting ∧
    (cancelAllPending st).1.active = st.active ∧
    (cancelAllPending st).1.totalAdded = st.totalAdded ∧
    (cancelAllPending st).1.totalCompleted = st.totalCompleted ∧
    (st.usePriority = false →
      ∀ (p : Nat) (rest : List (Nat × String)), st.waiting = (p, id) :: rest →
        (getTask (cancelTask st id).1).2 = some id ∧
        lookupTask (getTask (cancelTask st id).1).1 id = some d.cancel ∧
        (getTask (cancelTask st id).1).1.active.contains id = true) := by
  have hct : cancelTask st id =
      ({ st with registry := updateTask st.registry id d.cancel }, true) := by
    simp only [cancelTask, hd, if_pos hp]
  have hself : lookupTask (cancelTask st id).1 id = some d.cancel := by
    rw [hct]
    show regFind (updateTask st.registry id d.cancel) id = some d.cancel
    rw [regFind_updateTask_self]
    have hd' : regFind st.registry id = some d := hd
    rw [hd']
    rfl
  refine ⟨by rw [hct], by rw [hct], by rw [hct], by rw [hct], by rw [hct],
    ?_, ?_, hself, rfl, rfl, rfl, rfl, rfl, rfl, rfl, rfl, ?_⟩
  · rw [hct]; exact updateTask_keys st.registry id d.cancel
  · intro j hj
    rw [hct]
    show regFind (updateTask st.registry id d.cancel) j = regFind st.registry j
    exact regFind_updateTask_ne _ _ _ _ hj
  · intro hup p rest hw
    have hup' : (cancelTask st id).1.usePriority = false := by rw [hct]; exact hup
    have hw' : (cancelTask st id).1.waiting = (p, id) :: rest := by
      rw [hct]; exact hw
    have hg := getTask_fifo_head (cancelTask st id).1 p id rest hup' hw'
    refine ⟨hg.1, ?_, hg.2.2.2⟩
    show regFind (getTask (cancelTask st id).1).1.registry id = some d.cancel
    rw [hg.2.2.1]
    exact hself

/-- Witness for C10 at the concrete `mixedQueue`: its pending task `t1`
sits at the FIFO head; after cancelling, `get_task` still yields `t1`,
now cancelled and active. -/
theorem c10_cancel_frame_witness :
    lookupTask mixedQueue "t1" = some (freshTask "t1") ∧
    (freshTask "t1").status = .pending ∧
    (cancelTask mixedQueue "t1").2 = true ∧
    (cancelTask mixedQueue "t1").1.waiting = mixedQueue.waiting ∧
    (cancelTask mixedQueue "t1").1.active = mixedQueue.active ∧
    (getTask (cancelTask mixedQueue "t1").1).2 = some "t1" ∧
    lookupTask (getTask (cancelTask mixedQueue "t1").1).1 "t1" =
      some (freshTask "t1").cancel ∧
    (getTask (cancelTask mixedQueue "t1").1).1.active.contains "t1" = true := by
  have h := c10_cancel_frame mixedQueue "t1" (freshTask "t1") rfl rfl
  have hg := h.2.2.2.2.2.2.2.2.2.2.2.2.2.2.2.2 rfl 2 [] rfl
  exact ⟨rfl, rfl, h.1, h.2.1, h.2.2.1, hg.1, hg.2.1, hg.2.2⟩

/-! ## Helper lemmas: Python `max(…, key=f)` as a fold -/

theorem foldlMax_ge (f : PyDict → ℚ) :
    ∀ (l : List PyDict) (cur : PyDict),
      f cur ≤ f (l.foldl (fun c y => if f c < f y then y else c) cur) := by
  intro l
  induction l with
  | nil => intro cur; exact le_refl _
  | cons y ys ih =>
    intro cur
    rw [List.foldl_cons]
    by_cases h : f cur < f y
    · rw [if_pos h]
      exact le_trans h.le (ih y)
    · rw [if_neg h]
      exact ih cur

theorem foldlMax_cases (f : PyDict → ℚ) :
    ∀ (l : List PyDict) (cur : PyDict),
      l.foldl (fun c y => if f c < f y then y else c) cur = cur ∨
      (l.foldl (fun c y => if f c < f y then y else c) cur ∈ l ∧
       f cur < f (l.foldl (fun c y => if f c < f y then y else c) cur)) := by
  intro l
  induction l with
  | nil => intro cur; left; rfl
  | cons y ys ih =>
    intro cur
    rw [List.foldl_cons]
    by_cases h : f cur < f y
    · rw [if_pos h]
      rcases ih y with hy | ⟨hmem, hlt⟩
      · right
        refine ⟨?_, ?_⟩
        · rw [hy]; exact List.mem_cons_self y ys
        · rw [hy]; exact h
      · right; exact ⟨List.mem_cons_of_mem y hmem, lt_trans h hlt⟩
    · rw [if_neg h]
      rcases ih cur with hy | ⟨hmem, hlt⟩
      · left; exact hy
      · right; exact ⟨List.mem_cons_of_mem y hmem, hlt⟩

theorem foldlMax_ub (f : PyDict → ℚ) :
    ∀ (l : List PyDict) (cur : PyDict), ∀ z ∈ l,
      f z ≤ f (l.foldl (fun c y => if f c < f y then y else c) cur) := by
  intro l
  induction l with
  | nil => intro cur z hz; simp at hz
  | cons y ys ih =>
    intro cur z hz
    rw [List.foldl_cons]
    rcases List.mem_cons.mp hz with rfl | hz
    · by_cases h : f cur < f z
      · rw [if_pos h]
        exact foldlMax_ge f ys z
      · rw [if_neg h]
        exact le_trans (not_lt.mp h) (foldlMax_ge f ys cur)
    · exact ih _ z hz

theorem foldlMax_first (f : PyDict → ℚ) :
    ∀ (l : List PyDict) (cur : PyDict),
      l.foldl (fun c y => if f c < f y then y else c) cur = cur ∨
      l.find? (fun z => decide
          (f (l.foldl (fun c y => if f c < f y then y else c) cur) ≤ f z)) =
        some (l.foldl (fun c y => if f c < f y then y else c) cur) := by
  intro l
  induction l with
  | nil => intro cur; left; rfl
  | cons y ys ih =>
    intro cur
    rw [List.foldl_cons]
    by_cases h : f cur < f y
    · rw [if_pos h]
      right
      have hyr := foldlMax_ge f ys y
      by_cases hry : f (ys.foldl (fun c z => if f c < f z then z else c) y) ≤ f y
      · have hmr : ys.foldl (fun c z => if f c < f z then z else c) y = y := by
          rcases foldlMax_cases f ys y with hc | ⟨_, hlt⟩
          · exact hc
          · exact absurd (lt_of_lt_of_le hlt hry) (lt_irrefl _)
        rw [List.find?_cons_of_pos
          (p := fun z => decide
            (f (ys.foldl (fun c w => if f c < f w then w else c) y) ≤ f z)) _
          (by simpa using hry)]
        rw [hmr]
      · rw [List.find?_cons_of_neg
          (p := fun z => decide
            (f (ys.foldl (fun c w => if f c < f w then w else c) y) ≤ f z)) _
          (by simpa using hry)]
        rcases ih y with hc | hfind
        · exfalso
          apply hry
          rw [hc]
        · exact hfind
    · rw [if_neg h]
      rcases ih cur with hc | hfind
      · left; exact hc
      · rcases foldlMax_cases f ys cur with hc | ⟨_, hlt⟩
        · left; exact hc
        · right
          have hylt : f y < f (ys.foldl (fun c z => if f c < f z then z else c) cur) :=
            lt_of_le_of_lt (not_lt.mp h) hlt
          rw [List.find?_cons_of_neg
            (p := fun z => decide
              (f (ys.foldl (fun c w => if f c < f w then w else c) cur) ≤ f z)) _
            (by simpa using not_le.mpr hylt)]
          exact hfind

/-! ## Helper lemmas: the best-of scenario's values -/

theorem c7Std_eq : c7Std = c7StdDict := by
  have hdims : calculateOptimalDimensions 1000 1000 100 200 ((7071 : ℚ) / 10000) =
      (706, 706) := by
    norm_num [calculateOptimalDimensions, preDim, pyIntNat, pyInt, evenDown]
    decide
  have hq : qualityForResizedImage (fun q => if q ≤ 50 then 80 else 120) 100 = 50 := by
    decide
  show (compressSingleImage c7StdEnv "x.jpg" "x_standard.jpg" 100 1).1 = _
  simp only [compressSingleImage, c7StdEnv, List.length_replicate]
  rw [hdims]
  norm_num [c7StdDict, hq]
  decide

theorem c7ScoreStd : scoreMethod 100 c7Std = 9 / 10 := by
  rw [c7Std_eq]
  have h1 : dgetD c7StdDict "target_achieved" (.bool false) = .bool true := by decide
  have h2 : dgetD c7StdDict "final_size_bytes" .pynone = .int 100 := by decide
  have h3 : dgetD c7StdDict "quality_used" (.int 50) = .int 50 := by decide
  simp only [scoreMethod, h1, h2, h3, pyTruthy, pyNum]
  norm_num

theorem c7ScoreAdv : scoreMethod 100 c7Adv = 16 / 25 := by
  have h1 : dgetD c7Adv "target_achieved" (.bool false) = .bool false := by decide
  have h2 : dgetD c7Adv "final_size_bytes" .pynone = .int 150 := by decide
  have h3 : dgetD c7Adv "quality_used" (.int 50) = .int 95 := by decide
  simp only [scoreMethod, h1, h2, h3, pyTruthy, pyNum]
  norm_num

theorem c7ScoreWebp : scoreMethod 100 c7Webp = 37 / 50 := by
  have h1 : dgetD c7Webp "target_achieved" (.bool false) = .bool false := by decide
  have h2 : dgetD c7Webp "final_size_bytes" .pynone = .int 50 := by decide
  have h3 : dgetD c7Webp "quality_used" (.int 50) = .int 95 := by decide
  simp only [scoreMethod, h1, h2, h3, pyTruthy, pyNum]
  norm_num

theorem c7SpecStd : specScore 100 c7Std = 9 / 10 := by
  rw [c7Std_eq]
  have h2 : dgetD c7StdDict "final_size_bytes" .pynone = .int 100 := by decide
  have h3 : dgetD c7StdDict "quality_used" (.int 50) = .int 50 := by decide
  simp only [specScore, h2, h3, pyNum]
  norm_num

theorem c7SpecWebp : specScore 100 c7Webp = 99 / 100 := by
  have h2 : dgetD c7Webp "final_size_bytes" .pynone = .int 50 := by decide
  have h3 : dgetD c7Webp "quality_used" (.int 50) = .int 95 := by decide
  simp only [specScore, h2, h3, pyNum]
  norm_num

theorem c7Pick : bestOfPick 100 c7Methods = some c7Std := by
  have hstep1 :
      (if scoreMethod 100 c7Std < scoreMethod 100 c7Adv then c7Adv else c7Std) =
        c7Std := by
    rw [c7ScoreStd, c7ScoreAdv]
    norm_num
  have hstep2 :
      (if scoreMethod 100 c7Std < scoreMethod 100 c7Webp then c7Webp else c7Std) =
        c7Std := by
    rw [c7ScoreStd, c7ScoreWebp]
    norm_num
  show pyMaxBy (scoreMethod 100) [c7Std, c7Adv, c7Webp] = some c7Std
  simp only [pyMaxBy, List.foldl_cons, List.foldl_nil]
  rw [hstep1, hstep2]

/-! ## C7: the best-of winner selection -/

/-- C7 (counterexample): in a run where all three methods succeed, the
webp result meets the byte budget (final 50 ≤ target 100) but carries
no `target_achieved` key, so the code scores it as not-achieved: the
code picks the standard result although the webp result has the
strictly larger claimed score (0.99 vs 0.9, with achieved read as
"final ≤ target" per the Result contract). -/
theorem c7_counterexample :
    bestOfPick 100 c7Methods = some c7Std ∧
    c7Webp ∈ c7Methods ∧
    specScore 100 c7Std < specScore 100 c7Webp ∧
    dget c7Webp "target_achieved" = none ∧
    pyNum (dgetD c7Webp "final_size_bytes" .pynone) ≤ 100 := by
  refine ⟨c7Pick, ?_, ?_, by decide, ?_⟩
  · show c7Webp ∈ [c7Std, c7Adv, c7Webp]
    exact List.mem_cons_of_mem _ (List.mem_cons_of_mem _ (List.mem_cons_self _ _))
  · rw [c7SpecStd, c7SpecWebp]
    norm_num
  · have h2 : dgetD c7Webp "final_size_bytes" .pynone = .int 50 := by decide
    rw [h2]
    simp only [pyNum]
    norm_num

/-- C7 (amended): the winner maximizes the source's score — which reads
the achieved flag as stored, missing in webp and advanced-jpeg results
and so defaulting to not-achieved — with ties broken in favor of the
first-encountered method (the winner is the first result whose score
reaches the maximum). -/
theorem c7_best_of_pick (target : Nat) (methods : List PyDict) (m : PyDict)
    (hm : bestOfPick target methods = some m) :
    m ∈ methods ∧
    (∀ r ∈ methods, scoreMethod target r ≤ scoreMethod target m) ∧
    methods.find?
      (fun r => decide (scoreMethod target m ≤ scoreMethod target r)) = some m := by
  cases methods with
  | nil => simp [bestOfPick, pyMaxBy] at hm
  | cons x xs =>
    have hmeq : xs.foldl
        (fun c y => if scoreMethod target c < scoreMethod target y then y else c) x =
        m := by
      have hsome : some (xs.foldl
          (fun c y => if scoreMethod target c < scoreMethod target y then y else c) x) =
          some m := hm
      exact Option.some.inj hsome
    subst hmeq
    refine ⟨?_, ?_, ?_⟩
    · rcases foldlMax_cases (scoreMethod target) xs x with hc | ⟨hmem, _⟩
      · rw [hc]; exact List.mem_cons_self x xs
      · exact List.mem_cons_of_mem x hmem
    · intro r hr
      rcases List.mem_cons.mp hr with rfl | hr
      · exact foldlMax_ge (scoreMethod target) xs r
      · exact foldlMax_ub (scoreMethod target) xs x r hr
    · by_cases hx : scoreMethod target (xs.foldl
          (fun c y => if scoreMethod target c < scoreMethod target y then y else c) x) ≤
          scoreMethod target x
      · have hmx : xs.foldl
            (fun c y => if scoreMethod target c < scoreMethod target y then y else c) x =
            x := by
          rcases foldlMax_cases (scoreMethod target) xs x with hc | ⟨_, hlt⟩
          · exact hc
          · exact absurd (lt_of_lt_of_le hlt hx) (lt_irrefl _)
        rw [hmx]
        rw [List.find?_cons_of_pos
          (p := fun r => decide (scoreMethod target x ≤ scoreMethod target r)) _
          (by simp)]
      · rw [List.find?_cons_of_neg
          (p := fun r => decide (scoreMethod target (xs.foldl
            (fun c y => if scoreMethod target c < scoreMethod target y then y else c) x) ≤
            scoreMethod target r)) _ (by simpa using hx)]
        rcases foldlMax_first (scoreMethod target) xs x with hc | hfind
        · exfalso
          apply hx
          rw [hc]
        · exact hfind

/-- Witness for C7's amended theorem at the concrete best-of scenario:
the picked standard result is in the methods list, maximizes the
stored-flag score, and is the first to reach it. -/
theorem c7_best_of_pick_witness :
    bestOfPick 100 c7Methods = some c7Std ∧
    c7Std ∈ c7Methods ∧
    (∀ r ∈ c7Methods, scoreMethod 100 r ≤ scoreMethod 100 c7Std) ∧
    c7Methods.find?
      (fun r => decide (scoreMethod 100 c7Std ≤ scoreMethod 100 r)) =
      some c7Std := by
  have h := c7_best_of_pick 100 c7Methods c7Std c7Pick
  exact ⟨c7Pick, h.1, h.2.1, h.2.2⟩

end ImagesRar
